import Mathlib

/-!
# Verification of the Faster-Whisper-XXL GUI core subsystems

Shallow embedding of `src/faster-whisper-xxl-gui.py` together with proofs
about the claims of its specification.  Text is modelled as `List Char`,
file sizes as `Nat`, exit codes as `Int`.  Each definition carries a doc
comment pointing at the Python source lines it embeds.
-/

namespace WhisperGUI

/-! ## Console Stream Renderer (`WhisperGUI._append_text_to_console`, lines 1022-1062)

The renderer owns a `QTextEdit` document.  The document is a sequence of
blocks (lines); the cursor always sits at the end, so insertions append to
the last block and inserting `'\n'` starts a new block.  We model the
document as the list of completed blocks in reverse order (`prevRev`) plus
the text of the final, current block (`current`). -/

/-- The document/flag part of the renderer state: the `QTextEdit` contents
plus `self.last_line_was_overwrite` (line 347). -/
structure DocState where
  prevRev : List (List Char)
  current : List Char
  last_line_was_overwrite : Bool
deriving Repr, DecidableEq

/-- Full renderer state: document plus `self.output_buffer` (line 346). -/
structure ConsoleState where
  doc : DocState
  output_buffer : List Char
deriving Repr, DecidableEq

/-- `text_chunk.replace('\r\n', '\n')` (line 1032).  Python's `str.replace`
scans left to right and does not rescan the replacement, which this
two-character-lookahead recursion reproduces exactly. -/
def normalizeCRLF : List Char → List Char
  | [] => []
  | [c] => [c]
  | c1 :: c2 :: rest =>
    if c1 = '\r' ∧ c2 = '\n' then '\n' :: normalizeCRLF rest
    else c1 :: normalizeCRLF (c2 :: rest)

/-- A break character of the while loop at line 1034: `'\r'` or `'\n'`. -/
def isBreak (c : Char) : Bool := c = '\r' || c = '\n'

/-- Decompose the buffer the way the loop at lines 1034-1046 consumes it:
the loop repeatedly takes the text before the earliest `'\r'`/`'\n'`
(lines 1035-1043 pick whichever of `r_pos`/`n_pos` comes first) as a
complete line, so the whole buffer splits into a list of
(line, break-character) pairs followed by the undelimited trailing text. -/
def splitBuffer : List Char → List (List Char × Char) × List Char
  | [] => ([], [])
  | c :: rest =>
    if isBreak c then
      (([], c) :: (splitBuffer rest).1, (splitBuffer rest).2)
    else
      match splitBuffer rest with
      | ([], t) => ([], c :: t)
      | ((l, b) :: ls, t) => ((c :: l, b) :: ls, t)

/-- One iteration of the loop body (lines 1045-1060): if the previous break
was a bare `'\r'`, the cursor selects the last block and deletes its text
(lines 1048-1052) before inserting the new line text (line 1054); a `'\n'`
ending starts a new block and clears the overwrite flag (lines 1056-1058),
a `'\r'` ending sets it (lines 1059-1060). -/
def emitLine (d : DocState) (lc : List Char × Char) : DocState :=
  let cur := (if d.last_line_was_overwrite then [] else d.current) ++ lc.1
  if lc.2 = '\n' then
    { prevRev := cur :: d.prevRev, current := [], last_line_was_overwrite := false }
  else
    { prevRev := d.prevRev, current := cur, last_line_was_overwrite := true }

/-- The whole while loop at lines 1034-1060: emit every complete line of
the buffer in order and keep the undelimited tail buffered. -/
def processBuffer (st : ConsoleState) : ConsoleState :=
  { doc := (splitBuffer st.output_buffer).1.foldl emitLine st.doc,
    output_buffer := (splitBuffer st.output_buffer).2 }

/-- The non-HTML path of `_append_text_to_console` (lines 1022-1062):
append the chunk, normalized per chunk via `replace('\r\n', '\n')`
(line 1032), to `self.output_buffer`, then run the line loop. -/
def appendTextToConsole (st : ConsoleState) (chunk : List Char) : ConsoleState :=
  processBuffer { st with output_buffer := st.output_buffer ++ normalizeCRLF chunk }

/-- The flush prefix of `on_finished` (lines 1067-1072): when the pending
buffer is non-empty the code calls `_append_text_to_console(self.output_buffer
+ '\n')` — note the argument is *appended to the existing buffer* inside the
call — and then assigns `self.output_buffer = ""`; afterwards, if the last
line was an overwrite, `self.output_text.append("")` adds one empty block. -/
def onFinishedFlush (st : ConsoleState) : ConsoleState :=
  let st1 :=
    if st.output_buffer ≠ [] then
      { (appendTextToConsole st (st.output_buffer ++ ['\n'])) with output_buffer := [] }
    else st
  if st1.doc.last_line_was_overwrite then
    { st1 with
      doc :=
        { st1.doc with
          prevRev := st1.doc.current :: st1.doc.prevRev
          current := [] } }
  else st1

/-- The rendered lines of the console, in display order (the completed
blocks followed by the current block). -/
def consoleLines (st : ConsoleState) : List (List Char) :=
  (st.doc.current :: st.doc.prevRev).reverse

/-- The completed (newline-terminated or overwrite-pending) lines only. -/
def completedLines (st : ConsoleState) : List (List Char) :=
  st.doc.prevRev.reverse

/-- Fresh renderer state as established by `start_processing`
(lines 954-957): cleared console, empty buffer, overwrite flag off. -/
def initialConsole : ConsoleState :=
  { doc := { prevRev := [], current := [], last_line_was_overwrite := false },
    output_buffer := [] }

/-- Concatenation of a list of chunks into one byte sequence. -/
def joinChunks (chunks : List (List Char)) : List Char :=
  chunks.foldr (· ++ ·) []

/-- The sequence ends in a `'\r'` character. -/
def endsCR : List Char → Bool
  | [] => false
  | [c] => c = '\r'
  | _ :: c :: rest => endsCR (c :: rest)

/-- The sequence starts with a `'\n'` character. -/
def headLF : List Char → Bool
  | [] => false
  | c :: _ => c = '\n'

/-- No chunk boundary of `chunks` falls between a `'\r'` and an immediately
following `'\n'` of the concatenated input. -/
def noSplitCRLF (chunks : List (List Char)) : Prop :=
  ∀ i < chunks.length,
    endsCR (joinChunks (chunks.take (i + 1))) = true →
      headLF (joinChunks (chunks.drop (i + 1))) = false

instance (chunks : List (List Char)) : Decidable (noSplitCRLF chunks) := by
  unfold noSplitCRLF; infer_instance

/-! ## Process Session success classification
(`check_for_transcription_success`, lines 691-703, and `on_finished`,
lines 1064-1088) -/

/-- Python's `needle in haystack` substring test. -/
def containsText (needle haystack : List Char) : Bool :=
  haystack.tails.any (fun t => needle.isPrefixOf t)

/-- The `success_indicators` list of `check_for_transcription_success`
(lines 693-698). -/
def successIndicators : List (List Char) :=
  ["Operation finished in:".toList,
   "Subtitles are written to".toList,
   "Transcription speed:".toList,
   "audio seconds/s".toList]

/-- `check_for_transcription_success` (lines 691-703): scanning one output
chunk sets `self.transcription_completed_successfully` if any indicator is
a substring; an already-set flag stays set. -/
def check_for_transcription_success (flag : Bool) (text : List Char) : Bool :=
  flag || successIndicators.any (fun ind => containsText ind text)

/-- The terminal outcome rendered by `on_finished` (lines 1075-1082). -/
inductive SessionOutcome where
  | stoppedByUser
  | success
  | failed (crashed : Bool) (exitCode : Int)
deriving Repr, DecidableEq

/-- The classification branch of `on_finished` (lines 1075-1082):
`if self.stop_requested: ... elif exit_code == 0 or
self.transcription_completed_successfully: ... else: Crashed/Failed`. -/
def on_finished_outcome (stop_requested success_flag : Bool) (exitCode : Int)
    (crashed : Bool) : SessionOutcome :=
  if stop_requested then .stoppedByUser
  else if exitCode = 0 ∨ success_flag then .success
  else .failed crashed exitCode

/-- A whole session: every stdout/stderr chunk is scanned by
`handle_stdout`/`handle_stderr` (lines 1012-1020) before termination, and
`on_finished` classifies the result from the accumulated flag. -/
def sessionOutcome (chunks : List (List Char)) (stop_requested : Bool)
    (exitCode : Int) (crashed : Bool) : SessionOutcome :=
  on_finished_outcome stop_requested
    (chunks.foldl check_for_transcription_success false) exitCode crashed

end WhisperGUI


namespace DownloadManager

/-! ## Archive Extractor (`DownloadManager.extraction_worker`, lines 199-296) -/

/-- The failure classes raised inside `extraction_worker`: 7-Zip not found
(lines 222-225), non-zero 7-Zip exit (lines 232-234), no recognizable
source root (line 252), and a missing/empty expected file (lines 276-277). -/
inductive ExtractError where
  | toolNotFound
  | extractionFailed
  | structureUnrecognized
  | verificationFailed (name : String)
deriving Repr, DecidableEq

/-- A top-level entry of the temporary extraction directory as seen by
`os.listdir(extract_dir)` (line 239): its name, whether it is a directory,
the plain files inside it when it is one (name and byte size), and its own
byte size when it is a plain file. -/
structure FSEntry where
  name : String
  isDir : Bool
  files : List (String × Nat)
  size : Nat
deriving Repr, DecidableEq

/-- The environment one `extraction_worker` run observes: whether a 7-Zip
executable resolves (lines 210-221), its exit code (line 232), the listing
of the temporary directory after extraction (line 239), the files already
present in the destination directory, and the `self.error_string` /
`self.cancelled` flags as they stand while the worker runs (they are set
only by the main thread in `on_error`/`cancel`, lines 309-319). -/
structure ExtractEnv where
  toolFound : Bool
  toolExit : Int
  items : List FSEntry
  destPrior : List (String × Nat)
  errorStringSet : Bool
  cancelled : Bool
deriving Repr, DecidableEq

/-- Destination directory contents after the move loop (lines 259-269):
each moved entry overwrites any pre-existing entry of the same name. -/
def movedDest (destPrior moved : List (String × Nat)) : List (String × Nat) :=
  destPrior.filter (fun p => !(moved.any (fun m => m.1 = p.1))) ++ moved

/-- The verification loop (lines 274-278): iterate `files_to_extract` in
order; the first file that does not exist in the destination or has size
zero raises `Verification failed: '{filename}' ...`. -/
def verifyFiles (files : List String) (dest : List (String × Nat)) :
    Except ExtractError Unit :=
  match files with
  | [] => .ok ()
  | f :: rest =>
    match dest.find? (fun p => p.1 = f) with
    | none => .error (.verificationFailed f)
    | some p => if p.2 = 0 then .error (.verificationFailed f) else verifyFiles rest dest

/-- A destination file check of line 276: `os.path.exists(final_path) and
os.path.getsize(final_path) != 0`. -/
def fileOkay (dest : List (String × Nat)) (f : String) : Bool :=
  match dest.find? (fun p => p.1 = f) with
  | none => false
  | some p => !(p.2 = 0)

/-- The `try` body of `extraction_worker` (lines 202-282): resolve the
tool, run it, locate the source root (first top-level directory, else the
temp directory itself when it directly holds an expected file, lines
242-252), move everything into the destination and verify. -/
def extractionBody (env : ExtractEnv) (files_to_extract : List String) :
    Except ExtractError Unit :=
  if !env.toolFound then .error .toolNotFound
  else if env.toolExit ≠ 0 then .error .extractionFailed
  else
    match env.items.find? (fun it => it.isDir) with
    | some d => verifyFiles files_to_extract (movedDest env.destPrior d.files)
    | none =>
      if files_to_extract.any (fun f => env.items.any (fun it => it.name = f)) then
        verifyFiles files_to_extract
          (movedDest env.destPrior (env.items.map (fun it => (it.name, it.size))))
      else .error .structureUnrecognized

deriving instance DecidableEq for Except

/-- What one `extraction_worker` run leaves behind. -/
structure ExtractRun where
  result : Except ExtractError Unit
  tempDirRemoved : Bool
  archiveRemoved : Bool
  finishedEmitted : Bool
deriving Repr, DecidableEq

/-- `extraction_worker` (lines 199-296): run the body, then the `finally`
block (lines 289-291) calls `cleanup_archive_and_dir(extract_dir)` — which
removes both the archive file and the temporary directory (lines 293-296)
— unless `self.error_string` is already set; the success signal is emitted
only when the body succeeded and `self.cancelled` is off (lines 280-281). -/
def extraction_worker (env : ExtractEnv) (files_to_extract : List String) :
    ExtractRun :=
  let r := extractionBody env files_to_extract
  { result := r
    tempDirRemoved := !env.errorStringSet
    archiveRemoved := !env.errorStringSet
    finishedEmitted := (match r with | .ok _ => true | .error _ => false) && !env.cancelled }

/-! ## Archive Fetcher (`DownloadManager.download_worker`, lines 164-184) -/

/-- Outcome of one `download_worker` run: the finished signal (line 182),
the quiet early return on cancellation (lines 173-175) — no signal, since
`cancel` itself records `"User cancelled."` —, a silent return when the
flag was set only after the loop (line 181), or an `error_occurred`
emission (line 184). -/
inductive FetchOutcome where
  | finishedEmitted
  | cancelledReturn
  | noSignal
  | errorEmitted
deriving Repr, DecidableEq

/-- What one `download_worker` run leaves behind: the archive file's size
on disk (`none` when absent or deleted) and which signal was emitted. -/
structure FetchRun where
  outcome : FetchOutcome
  archiveBytes : Option Nat
deriving Repr, DecidableEq

/-- The `self.cancelled` flag as observed at the check before chunk `i`
(line 173): once the user sets it at check `k`, every later check sees it. -/
def cancelFlagAt (cancelAt : Option Nat) (i : Nat) : Bool :=
  match cancelAt with
  | none => false
  | some k => k ≤ i

/-- The chunk loop of `download_worker` (lines 172-179): before writing
each chunk the flag is checked; if set, `cleanup_archive` deletes the file
written so far (lines 173-175, 321-323) and the worker returns; otherwise
the chunk's bytes are appended. After the loop the finished signal is
emitted only if the flag is still clear (lines 181-182). -/
def downloadLoop (cancelAt : Option Nat) :
    List Nat → Nat → Nat → FetchRun
  | [], i, written =>
    if cancelFlagAt cancelAt i then { outcome := .noSignal, archiveBytes := some written }
    else { outcome := .finishedEmitted, archiveBytes := some written }
  | c :: rest, i, written =>
    if cancelFlagAt cancelAt i then { outcome := .cancelledReturn, archiveBytes := none }
    else downloadLoop cancelAt rest (i + 1) (written + c)

/-- `download_worker` (lines 164-184): an HTTP failure (lines 166-167)
raises before any byte is written and is reported via `error_occurred`
(line 184); otherwise the chunk loop runs. `chunks` are the sizes served
by `response.iter_content(chunk_size=8192)`; `cancelAt` is the first
flag check that observes the user's cancellation. -/
def download_worker (httpOk : Bool) (chunks : List Nat) (cancelAt : Option Nat) :
    FetchRun :=
  if httpOk then downloadLoop cancelAt chunks 0 0
  else { outcome := .errorEmitted, archiveBytes := none }

end DownloadManager

namespace Settings

/-! ## Settings persistence (`save_settings_to_file`, lines 1166-1187,
and `load_settings`, lines 1219-1228) -/

/-- Contents of a settings file on disk: a parseable document or malformed
bytes (a `json.JSONDecodeError` on load). -/
inductive FileContent where
  | valid (doc : List (String × String))
  | malformed
deriving Repr, DecidableEq

/-- The two paths touched by the save: `settings.json` and its sibling
`settings.json.tmp` (line 1170); `none` means the path does not exist. -/
structure SettingsFS where
  settingsFile : Option FileContent
  tempFile : Option FileContent
deriving Repr, DecidableEq

/-- `load_settings` (lines 1219-1228): read `settings.json` if it exists;
a missing file or a parse failure falls back to the empty document. -/
def load_settings (fs : SettingsFS) : List (String × String) :=
  match fs.settingsFile with
  | none => []
  | some .malformed => []
  | some (.valid d) => d

/-- The filesystem states passed through by `save_settings_to_file`
(lines 1166-1178), in order: after `json.dump` to the temp file
(lines 1170-1172); after `os.remove(self.settings_file)` (line 1177,
executed only when the settings file exists); and after
`os.rename(temp_file, self.settings_file)` (line 1178).  An interruption
of the save leaves the filesystem in one of these states. -/
def save_settings_steps (fs : SettingsFS) (doc : List (String × String)) :
    List SettingsFS :=
  let fs1 : SettingsFS := { fs with tempFile := some (.valid doc) }
  let removeSteps : List SettingsFS :=
    if fs1.settingsFile.isSome then [{ fs1 with settingsFile := none }] else []
  let fs3 : SettingsFS := { settingsFile := some (.valid doc), tempFile := none }
  fs1 :: removeSteps ++ [fs3]

end Settings

namespace BuildCommand

/-! ## Command construction (`WhisperGUI.build_command`, lines 900-951)

The Python command is a list of strings.  To keep track of where each
token comes from we distinguish literal option tokens from value tokens
(`str()`-rendered spinbox numbers, widget texts and paths); the source
emits them in exactly the order reproduced here. -/

/-- One token of the built command line. -/
inductive Tok where
  | flag (s : String)
  | strVal (s : String)
  | natVal (n : Nat)
  | ratVal (q : Rat)
deriving Repr, DecidableEq

/-- The UI-control state `build_command` reads.  Spinbox floats are
modelled as rationals (the UI steps them in exact tenths/hundredths, and
the only comparisons made — `> 0`, `!= 1.0`, `!= 5` — are exact there);
`output_dir` is the directory returned by `get_output_dir` (lines
893-898). -/
structure GuiConfig where
  executable_path : String
  input_file : String
  model : String
  task : String
  language : String
  compute_type : String
  device : String
  temperature : Rat
  beam_size : Nat
  best_of : Nat
  patience : Rat
  initial_prompt : String
  output_dir : String
  vad_filter : Bool
  vad_method : String
  vad_threshold : Rat
  vad_min_speech : Nat
  tempo_checked : Bool
  ff_tempo : Rat
  word_timestamps : Bool
  without_timestamps : Bool
  verbose : Bool
  print_progress : Bool
  highlight_words : Bool
  ff_mp3 : Bool
  ff_loudnorm : Bool
  ff_speechnorm : Bool
  fmt_json : Bool
  fmt_vtt : Bool
  fmt_srt : Bool
  fmt_lrc : Bool
  fmt_txt : Bool
  fmt_tsv : Bool
  fmt_all : Bool
deriving Repr, DecidableEq

/-- The `options` dict of lines 914-928 in insertion order: a value of
`none` models the Python `None` entries that line 930 skips. -/
def optionPairs (cfg : GuiConfig) : List (String × Option Tok) :=
  [("-m", some (.strVal cfg.model)),
   ("--task", some (.strVal cfg.task)),
   ("-l", if cfg.language ≠ "auto" then some (.strVal cfg.language) else none),
   ("--compute_type", some (.strVal cfg.compute_type)),
   ("--device", some (.strVal cfg.device)),
   ("--temperature", if cfg.temperature > 0 then some (.ratVal cfg.temperature) else none),
   ("--beam_size", if cfg.beam_size ≠ 5 then some (.natVal cfg.beam_size) else none),
   ("--best_of", if cfg.best_of ≠ 5 then some (.natVal cfg.best_of) else none),
   ("--patience", if cfg.patience ≠ 1 then some (.ratVal cfg.patience) else none),
   ("--initial_prompt", if cfg.initial_prompt ≠ "" then some (.strVal cfg.initial_prompt) else none),
   ("--output_dir", some (.strVal cfg.output_dir)),
   ("--vad_method", if cfg.vad_filter then some (.strVal cfg.vad_method) else none),
   ("--vad_threshold", if cfg.vad_filter then some (.ratVal cfg.vad_threshold) else none),
   ("--vad_min_speech_duration_ms", if cfg.vad_filter then some (.natVal cfg.vad_min_speech) else none),
   ("--ff_tempo", if cfg.tempo_checked then some (.ratVal cfg.ff_tempo) else none)]

/-- Lines 929-931 for one dict entry: `cmd.extend([option, value])` when
the value is not `None`, nothing otherwise. -/
def optionSegment : String × Option Tok → List Tok
  | (name, some v) => [Tok.flag name, v]
  | (_, none) => []

/-- The loop at lines 929-931 over the whole dict, in insertion order. -/
def optionArgs (cfg : GuiConfig) : List Tok :=
  (optionPairs cfg).flatMap optionSegment

/-- The `checkboxes` dict of lines 933-938 in insertion order. -/
def checkboxPairs (cfg : GuiConfig) : List (String × Bool) :=
  [("--word_timestamps", cfg.word_timestamps),
   ("--without_timestamps", cfg.without_timestamps),
   ("--verbose", cfg.verbose),
   ("--print_progress", cfg.print_progress),
   ("--highlight_words", cfg.highlight_words),
   ("--vad_filter", cfg.vad_filter),
   ("--ff_mp3", cfg.ff_mp3),
   ("--ff_loudnorm", cfg.ff_loudnorm),
   ("--ff_speechnorm", cfg.ff_speechnorm)]

/-- Lines 939-941 for one dict entry: `cmd.append(option)` when checked. -/
def checkboxSegment : String × Bool → List Tok
  | (name, true) => [Tok.flag name]
  | (_, false) => []

/-- The loop at lines 939-941 over the whole dict, in insertion order. -/
def checkboxArgs (cfg : GuiConfig) : List Tok :=
  (checkboxPairs cfg).flatMap checkboxSegment

/-- The per-format checkboxes of line 943 in dict order (`'all'` is
treated separately, lines 944-947). -/
def formatPairs (cfg : GuiConfig) : List (String × Bool) :=
  [("json", cfg.fmt_json), ("vtt", cfg.fmt_vtt), ("srt", cfg.fmt_srt),
   ("lrc", cfg.fmt_lrc), ("txt", cfg.fmt_txt), ("tsv", cfg.fmt_tsv)]

/-- Line 943: the checked individual formats, in order. -/
def selectedFormats (cfg : GuiConfig) : List String :=
  ((formatPairs cfg).filter (fun p => p.2)).map (fun p => p.1)

/-- Lines 943-951: default to `srt` when nothing is selected and `all`
is unchecked; `all` wins over any individual selection; then
`cmd.extend(["--output_format"] + selected_formats)`. -/
def formatArgs (cfg : GuiConfig) : List Tok :=
  let sel0 := selectedFormats cfg
  let sel := if sel0 = [] ∧ ¬cfg.fmt_all then ["srt"]
    else if cfg.fmt_all then ["all"] else sel0
  if sel ≠ [] then Tok.flag "--output_format" :: sel.map Tok.strVal else []

/-- `build_command` (lines 900-951), given that the guard clauses of
lines 901-911 (executable present and executable, input file present)
passed: `cmd = [self.executable_path, input_file]` (line 913) followed by
the option, checkbox and output-format sections. -/
def build_command (cfg : GuiConfig) : List Tok :=
  Tok.strVal cfg.executable_path :: Tok.strVal cfg.input_file ::
    (optionArgs cfg ++ checkboxArgs cfg ++ formatArgs cfg)

/-- Modelled from the spec: the wrapped tool's own documented default for
the `--task` option, which the repository does not contain (the spec's
§6 talks of "the tool's own documented default"; the Whisper command line
documents `--task` as defaulting to `transcribe`, one of the two values
the GUI's task combo box offers, line 515). -/
def documentedDefaultTask : String := "transcribe"

/-- A concrete control state in which every value-carrying option is left
at the wrapped tool's documented default (task `transcribe`, language
auto-detect, temperature 0, beam size 5, best-of 5, patience 1, no VAD,
no tempo change, no extra checkboxes, no output format selected). -/
def defaultsConfig : GuiConfig :=
  { executable_path := "faster-whisper-xxl"
    input_file := "input.mp3"
    model := "large-v3"
    task := "transcribe"
    language := "auto"
    compute_type := "float16"
    device := "cuda"
    temperature := 0
    beam_size := 5
    best_of := 5
    patience := 1
    initial_prompt := ""
    output_dir := "output"
    vad_filter := false
    vad_method := "silero_v4_fw"
    vad_threshold := 1/2
    vad_min_speech := 250
    tempo_checked := false
    ff_tempo := 1
    word_timestamps := false
    without_timestamps := false
    verbose := false
    print_progress := false
    highlight_words := false
    ff_mp3 := false
    ff_loudnorm := false
    ff_speechnorm := false
    fmt_json := false
    fmt_vtt := false
    fmt_srt := false
    fmt_lrc := false
    fmt_txt := false
    fmt_tsv := false
    fmt_all := false }

/-- `defaultsConfig` with the `all` output-format checkbox ticked. -/
def allFormatsConfig : GuiConfig := { defaultsConfig with fmt_all := true }

end BuildCommand

namespace WhisperGUI

/-! ### Renderer lemmas: the loop consumes the buffer line by line -/

/-- Splitting a concatenation: the lines of `u ++ v` are the lines of `u`
followed by the lines of `u`'s trailing fragment glued onto `v`. -/
theorem splitBuffer_append (u v : List Char) :
    splitBuffer (u ++ v) =
      ((splitBuffer u).1 ++ (splitBuffer ((splitBuffer u).2 ++ v)).1,
        (splitBuffer ((splitBuffer u).2 ++ v)).2) := by
  induction u with
  | nil => rfl
  | cons c u ih =>
    by_cases hc : isBreak c
    · simp [splitBuffer, hc, ih]
    · rcases hu : splitBuffer u with ⟨S1, S2⟩
      rcases hT : splitBuffer (S2 ++ v) with ⟨T1, T2⟩
      rw [hu, hT] at ih
      cases S1 with
      | nil =>
        have ih' : splitBuffer (u ++ v) = (T1, T2) := by simpa using ih
        cases T1 with
        | nil => simp [splitBuffer, hc, hu, hT, ih']
        | cons p ls =>
          rcases p with ⟨l, b⟩
          simp [splitBuffer, hc, hu, hT, ih']
      | cons p ls =>
        rcases p with ⟨l, b⟩
        simp [splitBuffer, hc, ih, hu, hT]

/-- The trailing fragment kept in the buffer contains no break character
(the loop at line 1034 runs while one is present). -/
theorem splitBuffer_trailing_no_break (b : List Char) :
    ∀ c ∈ (splitBuffer b).2, isBreak c = false := by
  induction b with
  | nil => simp [splitBuffer]
  | cons c rest ih =>
    by_cases hc : isBreak c
    · simpa [splitBuffer, hc] using ih
    · rcases hr : splitBuffer rest with ⟨ls, t⟩
      rw [hr] at ih
      cases ls with
      | nil =>
        simp only [splitBuffer, hc, hr]
        intro x hx
        rcases List.mem_cons.mp hx with rfl | hx
        · simpa using hc
        · exact ih x hx
      | cons p ls' => simpa [splitBuffer, hc, hr] using ih

/-- Processing a buffer extended on the right factors through processing
the original buffer first. -/
theorem processBuffer_append (d : DocState) (u v : List Char) :
    processBuffer ⟨d, u ++ v⟩ =
      processBuffer ⟨(processBuffer ⟨d, u⟩).doc, (processBuffer ⟨d, u⟩).output_buffer ++ v⟩ := by
  simp [processBuffer, splitBuffer_append u v, List.foldl_append]

theorem endsCR_append (u v : List Char) (hv : v ≠ []) :
    endsCR (u ++ v) = endsCR v := by
  induction u with
  | nil => rfl
  | cons x u ih =>
    cases u with
    | nil =>
      rcases v with _ | ⟨y, v'⟩
      · exact absurd rfl hv
      · rfl
    | cons z u' => simpa [endsCR] using ih

/-- `str.replace('\r\n', '\n')` distributes over a concatenation whose
boundary does not cut a `\r\n` pair. -/
theorem normalizeCRLF_append (a b : List Char)
    (h : endsCR a = true → headLF b = false) :
    normalizeCRLF (a ++ b) = normalizeCRLF a ++ normalizeCRLF b := by
  induction a using normalizeCRLF.induct with
  | case1 => rfl
  | case2 c =>
    rcases b with _ | ⟨b0, b'⟩
    · rfl
    · have hcb : ¬(c = '\r' ∧ b0 = '\n') := by
        rintro ⟨rfl, rfl⟩
        simp [endsCR, headLF] at h
      simp [normalizeCRLF, hcb]
  | case3 c1 c2 rest hcc ih =>
    rcases hcc with ⟨rfl, rfl⟩
    have hrest : endsCR rest = true → headLF b = false := by
      intro hr
      rcases rest with _ | ⟨z, r'⟩
      · simp [endsCR] at hr
      · exact h (by simpa [endsCR_append, endsCR] using hr)
    simp [normalizeCRLF, ih hrest]
  | case4 c1 c2 rest hcc ih =>
    have hrest : endsCR (c2 :: rest) = true → headLF b = false := by
      intro hr
      exact h (by simpa [endsCR] using hr)
    have hstep := ih hrest
    simp only [List.cons_append] at hstep
    simp only [List.cons_append, normalizeCRLF, if_neg hcc]
    exact congrArg (List.cons c1) hstep

/-- Feeding one chunk and then another is the same as feeding their
concatenation, provided the boundary does not cut a `\r\n` pair. -/
theorem appendTextToConsole_append (st : ConsoleState) (a b : List Char)
    (h : endsCR a = true → headLF b = false) :
    appendTextToConsole st (a ++ b) =
      appendTextToConsole (appendTextToConsole st a) b := by
  unfold appendTextToConsole
  rw [normalizeCRLF_append a b h, ← List.append_assoc]
  exact processBuffer_append st.doc (st.output_buffer ++ normalizeCRLF a) (normalizeCRLF b)

theorem noSplitCRLF_head (c : List Char) (rest : List (List Char))
    (h : noSplitCRLF (c :: rest)) :
    endsCR c = true → headLF (joinChunks rest) = false := by
  have := h 0 (by simp)
  simpa [joinChunks] using this

theorem noSplitCRLF_tail (c : List Char) (rest : List (List Char))
    (h : noSplitCRLF (c :: rest)) : noSplitCRLF rest := by
  intro j hj hend
  have hfull := h (j + 1) (by simpa using Nat.succ_lt_succ hj)
  have hjoin : joinChunks ((c :: rest).take (j + 1 + 1)) =
      c ++ joinChunks (rest.take (j + 1)) := by
    simp [joinChunks]
  by_cases hx : joinChunks (rest.take (j + 1)) = []
  · rw [hx] at hend
    simp [endsCR] at hend
  · have : endsCR (joinChunks ((c :: rest).take (j + 1 + 1))) = true := by
      rw [hjoin, endsCR_append _ _ hx]
      exact hend
    simpa using hfull this

/-- Folding the feed over a non-empty chunk list equals one feed of the
concatenation, when no boundary cuts a `\r\n` pair. -/
theorem foldl_appendTextToConsole (chunks : List (List Char)) (st : ConsoleState)
    (h : noSplitCRLF chunks) (hne : chunks ≠ []) :
    chunks.foldl appendTextToConsole st = appendTextToConsole st (joinChunks chunks) := by
  induction chunks generalizing st with
  | nil => exact absurd rfl hne
  | cons c rest ih =>
    cases rest with
    | nil => simp [joinChunks]
    | cons c2 rest2 =>
      have hjoin : joinChunks (c :: c2 :: rest2) = c ++ joinChunks (c2 :: rest2) := by
        simp [joinChunks]
      rw [List.foldl_cons, ih (appendTextToConsole st c) (noSplitCRLF_tail c _ h)
        (by simp), hjoin,
        appendTextToConsole_append st c (joinChunks (c2 :: rest2)) (noSplitCRLF_head c _ h)]

/-- The accumulated success flag is set iff some chunk contains a marker. -/
theorem foldl_check_success (chunks : List (List Char)) (b : Bool) :
    chunks.foldl check_for_transcription_success b = true ↔
      b = true ∨ ∃ c ∈ chunks, successIndicators.any (fun ind => containsText ind c) = true := by
  induction chunks generalizing b with
  | nil => simp
  | cons c rest ih =>
    rw [List.foldl_cons, ih]
    unfold check_for_transcription_success
    constructor
    · rintro (hb | hc)
      · rcases Bool.or_eq_true_iff.mp hb with hb | hb
        · exact Or.inl hb
        · exact Or.inr ⟨c, by simp, hb⟩
      · rcases hc with ⟨x, hx, hxm⟩
        exact Or.inr ⟨x, by simp [hx], hxm⟩
    · rintro (hb | ⟨x, hx, hxm⟩)
      · exact Or.inl (by simp [hb])
      · rcases List.mem_cons.mp hx with rfl | hx
        · exact Or.inl (by simp [hxm])
        · exact Or.inr ⟨x, hx, hxm⟩

end WhisperGUI

namespace WhisperGUI

/-! ### Claim theorems: Console Stream Renderer and Process Session -/

/-- C1, counterexample: the claim fails when a `\r\n` pair is split across
a chunk boundary.  Feeding `"a\r"` then `"\nb\n"` erases the `a` line
(the bare `\r` enters overwrite mode and the following `\n` flushes an
empty line over it), while feeding `"a\r\nb\n"` in one call keeps it. -/
theorem c1_split_crlf_changes_lines :
    consoleLines (onFinishedFlush
        (["a\r".toList, "\nb\n".toList].foldl appendTextToConsole initialConsole)) ≠
      consoleLines (onFinishedFlush
        (appendTextToConsole initialConsole "a\r\nb\n".toList)) := by
  decide

/-- C1, amended: for every input byte sequence and every way of splitting
it into chunks in which no boundary falls between a `\r` and an
immediately following `\n`, feeding the chunks one at a time to
`_append_text_to_console` (including the final flush of the pending
buffer performed by `on_finished`) produces the same final sequence of
rendered lines as feeding the whole sequence in one call. -/
theorem c1_chunk_invariance (chunks : List (List Char)) (h : noSplitCRLF chunks) :
    consoleLines (onFinishedFlush (chunks.foldl appendTextToConsole initialConsole)) =
      consoleLines (onFinishedFlush (appendTextToConsole initialConsole (joinChunks chunks))) := by
  cases hne : chunks with
  | nil => rfl
  | cons c rest =>
    rw [← hne, foldl_appendTextToConsole chunks initialConsole h (by simp [hne])]

/-- C1 witness: a concrete three-chunk split satisfying the boundary
condition (one chunk even ends in a bare `\r`). -/
theorem c1_chunk_invariance_witness :
    noSplitCRLF ["ab\r".toList, "cd\ne".toList, "f\n".toList] ∧
      consoleLines (onFinishedFlush
          (["ab\r".toList, "cd\ne".toList, "f\n".toList].foldl appendTextToConsole
            initialConsole)) =
        consoleLines (onFinishedFlush (appendTextToConsole initialConsole
          (joinChunks ["ab\r".toList, "cd\ne".toList, "f\n".toList]))) :=
  ⟨by decide, c1_chunk_invariance ["ab\r".toList, "cd\ne".toList, "f\n".toList] (by decide)⟩

/-- C7: feeding `"50%\r"` then `"100%\n"` from a fresh buffer with
overwrite mode off yields exactly one completed rendered line, `"100%"`,
and an empty current line: the `50%` line was replaced in place. -/
theorem c7_progress_line_replaced :
    completedLines (appendTextToConsole
        (appendTextToConsole initialConsole "50%\r".toList) "100%\n".toList) =
      ["100%".toList] ∧
    (appendTextToConsole
        (appendTextToConsole initialConsole "50%\r".toList) "100%\n".toList).doc.current =
      [] := by
  decide

/-- C10: after every non-HTML call of `_append_text_to_console` the
pending buffer contains neither `'\n'` nor `'\r'`: every delimited line
was emitted and only an undelimited trailing fragment stays buffered. -/
theorem c10_buffer_has_no_break_chars (st : ConsoleState) (chunk : List Char) :
    '\n' ∉ (appendTextToConsole st chunk).output_buffer ∧
      '\r' ∉ (appendTextToConsole st chunk).output_buffer := by
  constructor <;>
    · intro hmem
      have h := splitBuffer_trailing_no_break
        (st.output_buffer ++ normalizeCRLF chunk) _ hmem
      simp [isBreak] at h

/-- C2: a session whose stdout/stderr chunks contained a success marker is
reported as a success even on a crash status or non-zero exit code
(unless the user requested a stop), and the classification follows the
precedence user-stop > marker-seen > zero exit > non-zero exit/crash. -/
theorem c2_success_marker_overrides_crash (chunks : List (List Char))
    (stop : Bool) (exit : Int) (crashed : Bool) :
    ((∃ c ∈ chunks, (successIndicators.any fun ind => containsText ind c) = true) →
        stop = false → sessionOutcome chunks stop exit crashed = .success) ∧
      (stop = true → sessionOutcome chunks stop exit crashed = .stoppedByUser) ∧
      (stop = false → exit = 0 → sessionOutcome chunks stop exit crashed = .success) ∧
      (stop = false → exit ≠ 0 →
        (∀ c ∈ chunks, (successIndicators.any fun ind => containsText ind c) = false) →
        sessionOutcome chunks stop exit crashed = .failed crashed exit) := by
  refine ⟨?_, ?_, ?_, ?_⟩
  · intro hmark hstop
    have hflag : chunks.foldl check_for_transcription_success false = true :=
      (foldl_check_success chunks false).mpr (Or.inr hmark)
    simp [sessionOutcome, on_finished_outcome, hstop, hflag]
  · intro hstop
    simp [sessionOutcome, on_finished_outcome, hstop]
  · intro hstop hexit
    simp [sessionOutcome, on_finished_outcome, hstop, hexit]
  · intro hstop hexit hnone
    have hflag : chunks.foldl check_for_transcription_success false = false := by
      rcases hfb : chunks.foldl check_for_transcription_success false with _ | _
      · rfl
      · rcases (foldl_check_success chunks false).mp hfb with hb | ⟨c, hc, hcm⟩
        · exact absurd hb (by simp)
        · exact absurd hcm (by simp [hnone c hc])
    simp [sessionOutcome, on_finished_outcome, hstop, hexit, hflag]

/-- C2 witness: a chunk carrying the `Operation finished in:` marker makes
a crashed, exit-code-1 session report success. -/
theorem c2_success_marker_overrides_crash_witness :
    sessionOutcome ["Operation finished in: 12.3s".toList] false 1 true =
      SessionOutcome.success :=
  (c2_success_marker_overrides_crash ["Operation finished in: 12.3s".toList]
    false 1 true).1 (by decide) rfl

end WhisperGUI

namespace DownloadManager

/-! ### Claim theorems: Archive Extractor and Archive Fetcher -/

/-- If every expected file is present with non-zero size, the verification
loop succeeds. -/
theorem verifyFiles_ok (files : List String) (dest : List (String × Nat))
    (h : ∀ f ∈ files, fileOkay dest f = true) :
    verifyFiles files dest = .ok () := by
  induction files with
  | nil => rfl
  | cons f rest ih =>
    have hf := h f (by simp)
    unfold verifyFiles
    unfold fileOkay at hf
    rcases hfind : dest.find? (fun p => p.1 = f) with _ | p
    · rw [hfind] at hf; simp at hf
    · rw [hfind] at hf
      simp only [hfind]
      have hp : ¬p.2 = 0 := by simpa using hf
      rw [if_neg hp]
      exact ih (fun g hg => h g (by simp [hg]))

/-- If some expected file is missing or empty, the verification loop fails
naming an expected file that is missing or empty. -/
theorem verifyFiles_err (files : List String) (dest : List (String × Nat))
    (h : ∃ f ∈ files, fileOkay dest f = false) :
    ∃ g ∈ files, fileOkay dest g = false ∧
      verifyFiles files dest = .error (.verificationFailed g) := by
  induction files with
  | nil => simp at h
  | cons f rest ih =>
    rcases hok : fileOkay dest f with _ | _
    · refine ⟨f, by simp, hok, ?_⟩
      unfold verifyFiles
      unfold fileOkay at hok
      rcases hfind : dest.find? (fun p => p.1 = f) with _ | p
      · simp [hfind]
      · rw [hfind] at hok
        have hp : p.2 = 0 := by simpa using hok
        simp [hfind, hp]
    · have hrest : ∃ g ∈ rest, fileOkay dest g = false := by
        rcases h with ⟨x, hx, hxbad⟩
        rcases List.mem_cons.mp hx with rfl | hx
        · rw [hok] at hxbad; simp at hxbad
        · exact ⟨x, hx, hxbad⟩
      rcases ih hrest with ⟨g, hg, hgbad, hgeq⟩
      refine ⟨g, by simp [hg], hgbad, ?_⟩
      unfold verifyFiles
      unfold fileOkay at hok
      rcases hfind : dest.find? (fun p => p.1 = f) with _ | p
      · rw [hfind] at hok; simp at hok
      · rw [hfind] at hok
        have hp : ¬p.2 = 0 := by simpa using hok
        simp [hfind, hp, hgeq]

/-- If exactly one expected file is missing or empty, the verification
loop fails naming precisely that file. -/
theorem verifyFiles_err_named (files : List String) (dest : List (String × Nat))
    (f : String) (hf : f ∈ files) (hbad : fileOkay dest f = false)
    (hothers : ∀ g ∈ files, g ≠ f → fileOkay dest g = true) :
    verifyFiles files dest = .error (.verificationFailed f) := by
  induction files with
  | nil => simp at hf
  | cons x rest ih =>
    by_cases hxf : x = f
    · subst hxf
      unfold verifyFiles
      unfold fileOkay at hbad
      rcases hfind : dest.find? (fun p => p.1 = x) with _ | p
      · simp [hfind]
      · rw [hfind] at hbad
        have hp : p.2 = 0 := by simpa using hbad
        simp [hfind, hp]
    · have hx : fileOkay dest x = true := hothers x (by simp) hxf
      have hfr : f ∈ rest := by
        rcases List.mem_cons.mp hf with rfl | hfr
        · exact absurd rfl hxf
        · exact hfr
      unfold verifyFiles
      unfold fileOkay at hx
      rcases hfind : dest.find? (fun p => p.1 = x) with _ | p
      · rw [hfind] at hx; simp at hx
      · rw [hfind] at hx
        have hp : ¬p.2 = 0 := by simpa using hx
        simp only [hfind, if_neg hp]
        exact ih hfr (fun g hg => hothers g (by simp [hg]))

/-- C8: in every extractor run that reaches the verification pass, the
pass succeeds iff every expected file exists in the destination with
non-zero size; a failing pass names an expected file that is missing or
empty, and when exactly one expected file is bad it names that file. -/
theorem c8_verification_pass (files : List String) (dest : List (String × Nat)) :
    ((∀ f ∈ files, fileOkay dest f = true) → verifyFiles files dest = .ok ()) ∧
      (∀ f ∈ files, fileOkay dest f = false →
        ∃ g ∈ files, fileOkay dest g = false ∧
          verifyFiles files dest = .error (.verificationFailed g)) ∧
      (∀ f ∈ files, fileOkay dest f = false →
        (∀ g ∈ files, g ≠ f → fileOkay dest g = true) →
        verifyFiles files dest = .error (.verificationFailed f)) :=
  ⟨verifyFiles_ok files dest,
   fun f hf hbad => verifyFiles_err files dest ⟨f, hf, hbad⟩,
   fun f hf hbad hothers => verifyFiles_err_named files dest f hf hbad hothers⟩

/-- C8 witness: with expected files `a, b` and only `a` present (size 3),
verification fails naming `b`; with both present it succeeds. -/
theorem c8_verification_pass_witness :
    verifyFiles ["a", "b"] [("a", 3)] = .error (.verificationFailed "b") ∧
      verifyFiles ["a", "b"] [("a", 3), ("b", 7)] = .ok () :=
  ⟨(c8_verification_pass ["a", "b"] [("a", 3)]).2.2 "b" (by decide) (by decide)
      (by decide),
   (c8_verification_pass ["a", "b"] [("a", 3), ("b", 7)]).1 (by decide)⟩

/-- C3: whatever the body's outcome — success, tool not found, non-zero
tool exit, unrecognized structure, or verification failure — the
`finally` block of `extraction_worker` removes both the temporary
extraction directory and the downloaded archive, as long as
`self.error_string` has not been set by the main thread (it is only set
there by a prior `cancel` or an already-delivered error). -/
theorem c3_extractor_cleanup (env : ExtractEnv) (files : List String)
    (h : env.errorStringSet = false) :
    (extraction_worker env files).tempDirRemoved = true ∧
      (extraction_worker env files).archiveRemoved = true := by
  simp [extraction_worker, h]

/-- C3 witness: a run that fails verification (tool found, clean exit,
source directory present, but the expected file is empty) still removes
both the temporary directory and the archive. -/
theorem c3_extractor_cleanup_witness :
    (extraction_worker
        { toolFound := true, toolExit := 0,
          items := [{ name := "pkg", isDir := true, files := [("bin", 0)], size := 0 }],
          destPrior := [], errorStringSet := false, cancelled := false }
        ["bin"]).tempDirRemoved = true ∧
      (extraction_worker
        { toolFound := true, toolExit := 0,
          items := [{ name := "pkg", isDir := true, files := [("bin", 0)], size := 0 }],
          destPrior := [], errorStringSet := false, cancelled := false }
        ["bin"]).archiveRemoved = true :=
  c3_extractor_cleanup
    { toolFound := true, toolExit := 0,
      items := [{ name := "pkg", isDir := true, files := [("bin", 0)], size := 0 }],
      destPrior := [], errorStringSet := false, cancelled := false }
    ["bin"] rfl

/-- The chunk loop, entered at index `i` with the cancellation flag due to
turn on at a check `k` within the remaining chunks, deletes the partial
file and returns quietly. -/
theorem downloadLoop_cancelled (chunks : List Nat) (i written k : Nat)
    (hik : i ≤ k) (hlt : k < i + chunks.length) :
    downloadLoop (some k) chunks i written =
      { outcome := .cancelledReturn, archiveBytes := none } := by
  induction chunks generalizing i written with
  | nil => simp only [List.length_nil] at hlt; omega
  | cons c rest ih =>
    by_cases hki : k ≤ i
    · have : cancelFlagAt (some k) i = true := by simp [cancelFlagAt, hki]
      simp [downloadLoop, this]
    · have : cancelFlagAt (some k) i = false := by
        simp [cancelFlagAt]; omega
      simp only [downloadLoop, this, Bool.false_eq_true, if_neg, not_false_iff]
      exact ih (i + 1) (written + c) (by omega)
        (by simp only [List.length_cons] at hlt; omega)

/-- C6: when the cancellation flag is observed mid-transfer (at a check
strictly before the chunks are exhausted), the fetcher stops writing,
deletes the partial archive file — no partial file remains on disk — and
returns without emitting any error: the recorded outcome is the quiet
cancellation return, not a failure. -/
theorem c6_cancel_mid_download (chunks : List Nat) (k : Nat)
    (h : k < chunks.length) :
    download_worker true chunks (some k) =
      { outcome := .cancelledReturn, archiveBytes := none } := by
  unfold download_worker
  rw [if_pos rfl]
  exact downloadLoop_cancelled chunks 0 0 k (Nat.zero_le k) (by simpa using h)

/-- C6 witness: cancelling at the second check of a three-chunk download
leaves no file and reports the quiet cancellation. -/
theorem c6_cancel_mid_download_witness :
    download_worker true [8192, 8192, 4096] (some 1) =
      { outcome := .cancelledReturn, archiveBytes := none } :=
  c6_cancel_mid_download [8192, 8192, 4096] 1 (by decide)

end DownloadManager

namespace Settings

/-! ### Claim theorem: settings persistence -/

/-- C4, divergence witness: `save_settings_to_file` deletes the committed
settings file (line 1177) *before* renaming the temp file into place
(line 1178).  An interruption between the two leaves a state in which
loading yields neither the old document nor the new one but the empty
default — the previously committed document is lost, contradicting the
claimed old-or-new guarantee.  (The permissive fallback of
`load_settings` itself behaves as claimed: this is what makes the loss
silent.) -/
theorem c4_interrupted_save_loses_document :
    ∃ s ∈ save_settings_steps
        { settingsFile := some (.valid [("theme", "light")]), tempFile := none }
        [("theme", "dark")],
      load_settings s ≠ [("theme", "light")] ∧
        load_settings s ≠ [("theme", "dark")] ∧
        load_settings s = [] := by
  decide

end Settings

namespace BuildCommand

/-! ### Claim theorems: command construction -/


/-- In a pair list whose values are never literal option tokens, the
emitted `[option, value]` segments contain `flag f` exactly when some
pair `(f, some v)` is in the list. -/
theorem flag_mem_optionSegments (L : List (String × Option Tok)) (f : String)
    (hL : ∀ p ∈ L, ∀ s, p.2 ≠ some (Tok.flag s)) :
    (Tok.flag f ∈ L.flatMap optionSegment) ↔ ∃ v, (f, some v) ∈ L := by
  induction L with
  | nil => simp
  | cons p L ih =>
    have hLrest : ∀ q ∈ L, ∀ s, q.2 ≠ some (Tok.flag s) :=
      fun q hq => hL q (by simp [hq])
    rcases p with ⟨name, val⟩
    rcases val with _ | v
    · simp only [List.flatMap_cons, optionSegment, List.nil_append, ih hLrest, List.mem_cons]
      constructor
      · rintro ⟨v, hv⟩
        exact ⟨v, Or.inr hv⟩
      · rintro ⟨v, hv | hv⟩
        · simp at hv
        · exact ⟨v, hv⟩
    · have hvflag : ∀ s, v ≠ Tok.flag s := fun s hs =>
        hL (name, some v) (by simp) s (by rw [hs])
      simp only [List.flatMap_cons, optionSegment, List.cons_append, List.nil_append,
        List.mem_cons, ih hLrest]
      constructor
      · rintro (hf | hf | hf)
        · have hfn : f = name := by injection hf
          exact ⟨v, Or.inl (by rw [hfn])⟩
        · exact absurd hf.symm (hvflag f)
        · rcases hf with ⟨w, hw⟩
          exact ⟨w, Or.inr hw⟩
      · rintro ⟨w, hw | hw⟩
        · rw [Prod.mk.injEq] at hw
          rcases hw with ⟨rfl, _⟩
          exact Or.inl rfl
        · exact Or.inr (Or.inr ⟨w, hw⟩)


/-- In a checkbox pair list, the emitted bare flags contain `flag f`
exactly when `(f, true)` is in the list. -/
theorem flag_mem_checkboxSegments (L : List (String × Bool)) (f : String) :
    (Tok.flag f ∈ L.flatMap checkboxSegment) ↔ (f, true) ∈ L := by
  induction L with
  | nil => simp
  | cons p L ih =>
    rcases p with ⟨name, b⟩
    rcases b with _ | _
    · simp only [List.flatMap_cons, checkboxSegment, List.nil_append, ih, List.mem_cons]
      constructor
      · exact fun h => Or.inr h
      · rintro (h | h)
        · simp at h
        · exact h
    · simp only [List.flatMap_cons, checkboxSegment, List.cons_append, List.nil_append,
        List.mem_cons, ih]
      constructor
      · rintro (h | h)
        · have hfn : f = name := by injection h
          exact Or.inl (by rw [hfn])
        · exact Or.inr h
      · rintro (h | h)
        · rw [Prod.mk.injEq] at h
          exact Or.inl (by rw [h.1])
        · exact Or.inr h

/-- The output-format section contributes no option token other than
`--output_format`. -/
theorem flag_not_mem_formatArgs (cfg : GuiConfig) (f : String)
    (hf : f ≠ "--output_format") : Tok.flag f ∉ formatArgs cfg := by
  have key : ∀ sel : List String,
      Tok.flag f ∈
          (if sel ≠ [] then Tok.flag "--output_format" :: sel.map Tok.strVal else []) →
        False := by
    intro sel hmem
    split at hmem
    · rcases List.mem_cons.mp hmem with h | h
      · exact hf (by injection h)
      · rcases List.mem_map.mp h with ⟨s, _, hs⟩
        simp at hs
    · simp at hmem
  exact fun hmem => key _ hmem

/-- The option values of lines 914-928 are widget texts, paths or
`str()`-rendered numbers — never literal option tokens. -/
theorem optionPairs_values_not_flags (cfg : GuiConfig) :
    ∀ p ∈ optionPairs cfg, ∀ s, p.2 ≠ some (Tok.flag s) := by
  intro p hp s
  simp only [optionPairs, List.mem_cons, List.not_mem_nil, or_false] at hp
  rcases hp with rfl | rfl | rfl | rfl | rfl | rfl | rfl | rfl | rfl | rfl | rfl | rfl
    | rfl | rfl | rfl
  all_goals ((try split) <;> simp)

/-- Where a non-`--output_format` option token of the built command can
come from: a non-`None` entry of the `options` dict or a checked box. -/
theorem flag_mem_build_command (cfg : GuiConfig) (f : String)
    (hf : f ≠ "--output_format") :
    (Tok.flag f ∈ build_command cfg) ↔
      ((∃ v, (f, some v) ∈ optionPairs cfg) ∨ (f, true) ∈ checkboxPairs cfg) := by
  unfold build_command
  constructor
  · intro hmem
    rcases List.mem_cons.mp hmem with h | hmem
    · simp at h
    · rcases List.mem_cons.mp hmem with h | hmem
      · simp at h
      · rcases List.mem_append.mp hmem with hmem | hmem
        · rcases List.mem_append.mp hmem with hmem | hmem
          · exact Or.inl ((flag_mem_optionSegments _ f
              (optionPairs_values_not_flags cfg)).mp hmem)
          · exact Or.inr ((flag_mem_checkboxSegments _ f).mp hmem)
        · exact absurd hmem (flag_not_mem_formatArgs cfg f hf)
  · rintro (h | h)
    · exact List.mem_cons.mpr (Or.inr (List.mem_cons.mpr (Or.inr
        (List.mem_append.mpr (Or.inl (List.mem_append.mpr (Or.inl
          ((flag_mem_optionSegments _ f (optionPairs_values_not_flags cfg)).mpr h))))))))
    · exact List.mem_cons.mpr (Or.inr (List.mem_cons.mpr (Or.inr
        (List.mem_append.mpr (Or.inl (List.mem_append.mpr (Or.inr
          ((flag_mem_checkboxSegments _ f).mpr h))))))))


/-- C5, counterexample: `--task` is emitted unconditionally (line 915),
so a configuration whose task equals the wrapped tool's documented
default, `transcribe`, still carries the flag — contradicting "a
value-carrying flag only when the configured value differs from the
documented default". -/
theorem c5_default_task_still_emitted :
    defaultsConfig.task = documentedDefaultTask ∧
      Tok.flag "--task" ∈ build_command defaultsConfig := by
  exact ⟨rfl, by decide⟩

/-- C5, amended: only `-l`, `--temperature`, `--beam_size`, `--best_of`
and `--patience` are suppressed when their value equals the encoded
default (`auto`, `0`, `5`, `5`, `1.0` respectively), and they are emitted
exactly when it differs; `-m`, `--task`, `--compute_type`, `--device` and
`--output_dir` are emitted in every configuration, whatever their value. -/
theorem c5_flag_emission (cfg : GuiConfig) :
    Tok.flag "-m" ∈ build_command cfg ∧
      Tok.flag "--task" ∈ build_command cfg ∧
      Tok.flag "--compute_type" ∈ build_command cfg ∧
      Tok.flag "--device" ∈ build_command cfg ∧
      Tok.flag "--output_dir" ∈ build_command cfg ∧
      ((Tok.flag "-l" ∈ build_command cfg) ↔ cfg.language ≠ "auto") ∧
      ((Tok.flag "--temperature" ∈ build_command cfg) ↔ 0 < cfg.temperature) ∧
      ((Tok.flag "--beam_size" ∈ build_command cfg) ↔ cfg.beam_size ≠ 5) ∧
      ((Tok.flag "--best_of" ∈ build_command cfg) ↔ cfg.best_of ≠ 5) ∧
      ((Tok.flag "--patience" ∈ build_command cfg) ↔ cfg.patience ≠ 1) := by
  refine ⟨?_, ?_, ?_, ?_, ?_, ?_, ?_, ?_, ?_, ?_⟩
  · rw [flag_mem_build_command cfg "-m" (by decide)]
    exact Or.inl ⟨.strVal cfg.model, by simp [optionPairs]⟩
  · rw [flag_mem_build_command cfg "--task" (by decide)]
    exact Or.inl ⟨.strVal cfg.task, by simp [optionPairs]⟩
  · rw [flag_mem_build_command cfg "--compute_type" (by decide)]
    exact Or.inl ⟨.strVal cfg.compute_type, by simp [optionPairs]⟩
  · rw [flag_mem_build_command cfg "--device" (by decide)]
    exact Or.inl ⟨.strVal cfg.device, by simp [optionPairs]⟩
  · rw [flag_mem_build_command cfg "--output_dir" (by decide)]
    exact Or.inl ⟨.strVal cfg.output_dir, by simp [optionPairs]⟩
  · rw [flag_mem_build_command cfg "-l" (by decide)]
    by_cases hl : cfg.language = "auto" <;> simp [optionPairs, checkboxPairs, hl]
  · rw [flag_mem_build_command cfg "--temperature" (by decide)]
    by_cases ht : (0 : Rat) < cfg.temperature <;> simp [optionPairs, checkboxPairs, ht]
  · rw [flag_mem_build_command cfg "--beam_size" (by decide)]
    by_cases hb : cfg.beam_size = 5 <;> simp [optionPairs, checkboxPairs, hb]
  · rw [flag_mem_build_command cfg "--best_of" (by decide)]
    by_cases hb : cfg.best_of = 5 <;> simp [optionPairs, checkboxPairs, hb]
  · rw [flag_mem_build_command cfg "--patience" (by decide)]
    by_cases hp : cfg.patience = 1 <;> simp [optionPairs, checkboxPairs, hp]

/-- C9: with no individual output-format checkbox checked and `all`
unchecked, the command ends with `--output_format srt` (the silent
default); with `all` checked it ends with `--output_format all`
regardless of the individual boxes. -/
theorem c9_output_format_default (cfg : GuiConfig) :
    (cfg.fmt_all = false →
      cfg.fmt_json = false ∧ cfg.fmt_vtt = false ∧ cfg.fmt_srt = false ∧
        cfg.fmt_lrc = false ∧ cfg.fmt_txt = false ∧ cfg.fmt_tsv = false →
      ∃ l, build_command cfg = l ++ [Tok.flag "--output_format", Tok.strVal "srt"]) ∧
    (cfg.fmt_all = true →
      ∃ l, build_command cfg = l ++ [Tok.flag "--output_format", Tok.strVal "all"]) := by
  constructor
  · rintro hall ⟨h1, h2, h3, h4, h5, h6⟩
    have hsel : selectedFormats cfg = [] := by
      simp [selectedFormats, formatPairs, h1, h2, h3, h4, h5, h6]
    have hfmt : formatArgs cfg = [Tok.flag "--output_format", Tok.strVal "srt"] := by
      simp [formatArgs, hsel, hall]
    refine ⟨Tok.strVal cfg.executable_path :: Tok.strVal cfg.input_file ::
      (optionArgs cfg ++ checkboxArgs cfg), ?_⟩
    rw [build_command, hfmt]
    simp
  · intro hall
    have hfmt : formatArgs cfg = [Tok.flag "--output_format", Tok.strVal "all"] := by
      simp [formatArgs, hall]
    refine ⟨Tok.strVal cfg.executable_path :: Tok.strVal cfg.input_file ::
      (optionArgs cfg ++ checkboxArgs cfg), ?_⟩
    rw [build_command, hfmt]
    simp

/-- C9 witness: the all-defaults configuration gets `--output_format srt`;
ticking `all` gets `--output_format all`. -/
theorem c9_output_format_default_witness :
    (∃ l, build_command defaultsConfig =
        l ++ [Tok.flag "--output_format", Tok.strVal "srt"]) ∧
      ∃ l, build_command allFormatsConfig =
        l ++ [Tok.flag "--output_format", Tok.strVal "all"] :=
  ⟨(c9_output_format_default defaultsConfig).1 rfl ⟨rfl, rfl, rfl, rfl, rfl, rfl⟩,
   (c9_output_format_default allFormatsConfig).2 rfl⟩

end BuildCommand
